import Mathlib

/-!
Verification of the go-btfs chain bootstrap and cheque-command layer.

The Go source under scrutiny is `chain/chain.go`, `core/corehttp/webui.go`,
`core/commands/cheque/send_list.go` and
`core/commands/cheque/receive_history_peer.go`.  Machine integers are
modelled as `Nat`/`Int`, byte strings as `List Nat`, fallible Go calls as
`Except`/`Option`, and the external collaborators (chain backend, state
store, signer) as explicit function records passed in, so every Go code
path becomes a total, executable Lean function.
-/

set_option autoImplicit false

namespace Btfs

/-! ## Hexadecimal helpers (Go `encoding/hex` and `go-ethereum/common`) -/

/-- Numeric value of a hexadecimal character, `none` for a non-hex character.
Mirrors the byte-wise case analysis of Go `encoding/hex`. -/
def hexVal (c : Char) : Option Nat :=
  if c ≥ '0' ∧ c ≤ '9' then some (c.toNat - '0'.toNat)
  else if c ≥ 'a' ∧ c ≤ 'f' then some (c.toNat - 'a'.toNat + 10)
  else if c ≥ 'A' ∧ c ≤ 'F' then some (c.toNat - 'A'.toNat + 10)
  else none

/-- Go-ethereum `isHexCharacter`: the character is a hex digit. -/
def isHexCharacter (c : Char) : Bool :=
  (hexVal c).isSome

/-- Embedding of Go `hex.DecodeString`: consumes the characters two at a
time, producing one byte per pair; fails on an odd-length input or on any
non-hex character. -/
def hexDecodeString : List Char → Option (List Nat)
  | [] => some []
  | [_] => none
  | a :: b :: rest =>
    match hexVal a, hexVal b, hexDecodeString rest with
    | some hi, some lo, some bs => some ((16 * hi + lo) :: bs)
    | _, _, _ => none

/-- Go `strings.TrimPrefix(s, "0x")` on the character list of the string:
removes one leading lowercase `0x` when present, otherwise returns the
input unchanged. -/
def trimPfx0x : List Char → List Char
  | '0' :: 'x' :: rest => rest
  | cs => cs

/-- Go-ethereum `has0xPrefix`: a leading `0x` or `0X`. -/
def has0xPfx : List Char → Bool
  | '0' :: c :: _ => c = 'x' ∨ c = 'X'
  | _ => false

/-- Go-ethereum `isHex`: even length and every character a hex digit. -/
def isHex (cs : List Char) : Bool :=
  cs.length % 2 = 0 ∧ cs.all isHexCharacter

/-- Embedding of go-ethereum `common.IsHexAddress`: after stripping an
optional `0x`/`0X` prefix the remainder is exactly 40 hex characters
(20 bytes). -/
def IsHexAddress (s : String) : Bool :=
  let cs := s.toList
  let cs := if has0xPfx cs then cs.drop 2 else cs
  cs.length = 40 ∧ isHex cs

/-- Big-endian interpretation of a byte list as a natural number. -/
def bytesToNat (bs : List Nat) : Nat :=
  bs.foldl (fun acc b => acc * 256 + b % 256) 0

/-- Embedding of go-ethereum `common.BytesToAddress` with the address
viewed as its 160-bit numeric value: keep the last 20 bytes. -/
def BytesToAddress (bs : List Nat) : Nat :=
  bytesToNat (bs.drop (bs.length - 20))

/-- Partial hex decode, used by go-ethereum `FromHex`/`Hex2Bytes`, which
discard the decode error: bytes for the longest valid pair run. -/
def hexDecodePartial : List Char → List Nat
  | a :: b :: rest =>
    match hexVal a, hexVal b with
    | some hi, some lo => (16 * hi + lo) :: hexDecodePartial rest
    | _, _ => []
  | _ => []

/-- Embedding of go-ethereum `common.HexToAddress`: strip an optional hex
prefix, left-pad to an even number of characters, decode, and keep the low
160 bits. -/
def HexToAddress (s : String) : Nat :=
  let cs := s.toList
  let cs := if has0xPfx cs then cs.drop 2 else cs
  let cs := if cs.length % 2 = 1 then '0' :: cs else cs
  BytesToAddress (hexDecodePartial cs)

/-- Embedding of go-ethereum `common.BytesToHash` (`Hash.SetBytes`): keep
the last 32 bytes, left-padded with zeros to exactly 32 bytes. -/
def BytesToHash (bs : List Nat) : List Nat :=
  let b2 := if bs.length > 32 then bs.drop (bs.length - 32) else bs
  List.replicate (32 - b2.length) 0 ++ b2

/-! ## Chain configuration (`chain/config`) -/

/-- Chain configuration record, the fields of `config.ChainConfig` that
`chain/chain.go` reads. -/
structure ChainConfig where
  endpoint : String
  currentFactory : Nat
  priceOracleAddress : Nat
  deriving Repr, DecidableEq, Inhabited

/-- Modelled from the spec: the table of well-known deployment addresses
keyed by chain identifier ("Deployment address resolution for a known
network MUST fall back to a well-known factory address keyed by chain
identifier").  `chain/config` is outside the provided sources; the
concrete entries are representative and every theorem below depends only
on whether a chain identifier is present in the table. -/
def knownChainConfigs : List (Int × ChainConfig) :=
  [ (199, { endpoint := "https://rpc.bittorrentchain.io"
          , currentFactory := 0x123151402076fc819b7564510989e475c9cd93ca
          , priceOracleAddress := 0x6f0a22a4bdcbbcbd7e4a60cac2dccb4c8aca7119 })
  , (1029, { endpoint := "https://pre-rpc.bt.io"
           , currentFactory := 0xf90c71b03e0c2a1cce4ef08295a752cdf6e4c269
           , priceOracleAddress := 0x3b3b57de6b0e7b2aee37e3bd7e24f1cd18a52b04 }) ]

/-- Modelled from the spec: `config.GetChainConfig(chainID)` returns the
chain configuration and a found flag; an unrecognized chain identifier
yields the zero configuration and `false`. -/
def GetChainConfig (chainID : Int) : ChainConfig × Bool :=
  match knownChainConfigs.lookup chainID with
  | some cfg => (cfg, true)
  | none => (default, false)

/-! ## Vault factory initialization (`initVaultFactory`) -/

/-- Result of `vault.NewFactory backend transactionService address`:
the factory records the backend, the transaction service and the factory
contract address it was constructed with. -/
structure Factory (β τ : Type) where
  backend : β
  transactionService : τ
  address : Nat
  deriving Repr, DecidableEq

/-- Embedding of `vault.NewFactory`. -/
def NewFactory {β τ : Type} (backend : β) (transactionService : τ) (address : Nat) :
    Factory β τ :=
  { backend := backend, transactionService := transactionService, address := address }

/-- Embedding of `initVaultFactory` from `chain/chain.go`: with an empty
factory-address string, fall back to the configured factory for the chain
identifier or fail for an unknown network; with a non-empty string, reject
a malformed hex address, otherwise use the parsed address. -/
def initVaultFactory {β τ : Type} (backend : β) (chainID : Int)
    (transactionService : τ) (factoryAddress : String) :
    Except String (Factory β τ) :=
  let chainCfg := GetChainConfig chainID
  let foundFactory := chainCfg.1.currentFactory
  if factoryAddress = "" then
    if ¬ chainCfg.2 then
      .error ("no known factory address for this network (chain id: " ++ toString chainID ++ ")")
    else
      .ok (NewFactory backend transactionService foundFactory)
  else if ¬ IsHexAddress factoryAddress then
    .error "malformed factory address"
  else
    .ok (NewFactory backend transactionService (HexToAddress factoryAddress))

/-! ## Deployment-hash lookup (`GetTxHash`) -/

/-- Outcome of `stateStore.Get(key, &value)` for one key: the decoded
value, the distinguished `storage.ErrNotFound`, or another store error. -/
inductive StoreGetResult where
  | found (value : List Nat)
  | notFound
  | failure (e : String)
  deriving Repr, DecidableEq

/-- Modelled from the spec: `vault.VaultDeploymentKey`, the key of the
persisted vault-deployment transaction hash; the `vault` package is
outside the provided sources and the theorems depend only on the key
being a fixed constant. -/
def VaultDeploymentKey : String := "swap_vault_deployment"

/-- Errors surfaced by `GetTxHash`: the distinguished manual-supply
message produced on `storage.ErrNotFound`, or the propagated store
error. -/
inductive TxHashError where
  | notFoundManual
  | storeFailure (e : String)
  deriving Repr, DecidableEq

/-- Embedding of `GetTxHash` from `chain/chain.go`: read the
vault-deployment key from the durable store; translate `NotFound` into
the distinguished manual-supply error and propagate any other store
error. -/
def GetTxHash (stateStore : String → StoreGetResult) :
    Except TxHashError (List Nat) :=
  match stateStore VaultDeploymentKey with
  | .found txHash => .ok txHash
  | .notFound => .error .notFoundManual
  | .failure e => .error (.storeFailure e)

/-! ## Next-block lookup (`GetTxNextBlock`) -/

/-- The fields of a transaction receipt read by `GetTxNextBlock`. -/
structure TxReceipt where
  blockNumber : Nat
  deriving Repr, DecidableEq

/-- The fields of a chain block read by `GetTxNextBlock`:
`block.Hash().Bytes()`. -/
structure BlockInfo where
  hash : List Nat
  deriving Repr, DecidableEq

/-- The chain backend as consumed by `GetTxNextBlock`:
`TransactionReceipt` keyed by a 32-byte transaction hash, and
`transaction.WaitBlock` with a maximum wait duration and a block
number. -/
structure ChainBackend where
  transactionReceipt : List Nat → Except String TxReceipt
  waitBlock : Nat → Nat → Except String BlockInfo

/-- One observable query against the chain backend, recorded so that
frame conditions (which queries a call performs) are provable. -/
inductive BackendQuery where
  | receiptOf (txHash : List Nat)
  | waitFor (duration : Nat) (blockNumber : Nat)
  deriving Repr, DecidableEq

/-- The transaction monitor handle.  `GetTxNextBlock` receives one and
never uses it; `InitChain` constructs one with the package cancellation
depth. -/
structure Monitor where
  backend : Nat
  overlayAddress : Nat
  pollingInterval : Nat
  cancellationDepth : Nat
  deriving Repr, DecidableEq

/-- Embedding of `transaction.NewMonitor`: the monitor records the
backend handle, the overlay address, the polling interval and the
cancellation depth it was constructed with. -/
def NewMonitor (backend overlayAddress pollingInterval cancellationDepth : Nat) : Monitor :=
  { backend := backend, overlayAddress := overlayAddress
  , pollingInterval := pollingInterval, cancellationDepth := cancellationDepth }

/-- Embedding of `GetTxNextBlock` from `chain/chain.go`, returning the
result together with the list of backend queries the call performed.
A non-empty block-hash string is trimmed of an optional `0x` prefix,
required to have exactly 64 characters, and hex decoded, all without
touching the backend; an empty one triggers the receipt read and the
wait for the following block. -/
def GetTxNextBlock (backend : ChainBackend) (monitor : Monitor) (duration : Nat)
    (trx : List Nat) (blockHash : String) :
    Except String (List Nat) × List BackendQuery :=
  if blockHash ≠ "" then
    let blockHashTrimmed := trimPfx0x blockHash.toList
    if blockHashTrimmed.length ≠ 64 then
      (.error "invalid length", [])
    else
      match hexDecodeString blockHashTrimmed with
      | none => (.error "encoding hex: invalid byte", [])
      | some bytes => (.ok bytes, [])
  else
    match backend.transactionReceipt (BytesToHash trx) with
    | .error e => (.error e, [.receiptOf (BytesToHash trx)])
    | .ok tx =>
      match backend.waitBlock duration (tx.blockNumber + 1) with
      | .error e =>
        (.error e, [.receiptOf (BytesToHash trx), .waitFor duration (tx.blockNumber + 1)])
      | .ok block =>
        (.ok block.hash, [.receiptOf (BytesToHash trx), .waitFor duration (tx.blockNumber + 1)])

/-! ## Chain bootstrap (`InitChain`) -/

/-- `MaxDelay` from `chain/chain.go`: `1 * time.Minute`, in
nanoseconds (the unit of Go `time.Duration`). -/
def MaxDelay : Nat := 60 * 1000000000

/-- `CancellationDepth` from `chain/chain.go`. -/
def CancellationDepth : Nat := 6

/-- The package-level `ChainObject` contents published by `InitChain`. -/
structure ChainInfo where
  chainconfig : ChainConfig
  backend : Nat
  overlayAddress : Nat
  chainID : Int
  peerID : String
  transactionMonitor : Monitor
  transactionService : Nat
  deriving Repr, DecidableEq

/-- The fallible external calls `InitChain` makes, as explicit
functions: `ethclient.Dial` on the configured endpoint,
`signer.EthereumAddress()`, and `transaction.NewService`. -/
structure InitChainDeps where
  dial : String → Except String Nat
  ethereumAddress : Except String Nat
  newTransactionService : Except String Nat

/-- Embedding of `InitChain` from `chain/chain.go` with the package
global `ChainObject` threaded explicitly: the call returns its result
together with the new value of `ChainObject`, which is assigned only on
the all-successful path. -/
def InitChain (deps : InitChainDeps) (pollingInterval : Nat) (chainID : Int)
    (peerid : String) (chainObject : ChainInfo) :
    Except String ChainInfo × ChainInfo :=
  let chainconfig := (GetChainConfig chainID).1
  match deps.dial chainconfig.endpoint with
  | .error e => (.error ("dial eth client: " ++ e), chainObject)
  | .ok backend =>
    match deps.ethereumAddress with
    | .error e => (.error ("eth address: " ++ e), chainObject)
    | .ok overlayEthAddress =>
      let transactionMonitor := NewMonitor backend overlayEthAddress pollingInterval CancellationDepth
      match deps.newTransactionService with
      | .error e => (.error ("new transaction service: " ++ e), chainObject)
      | .ok transactionService =>
        let info : ChainInfo :=
          { chainconfig := chainconfig
          , backend := backend
          , overlayAddress := overlayEthAddress
          , chainID := chainID
          , peerID := peerid
          , transactionMonitor := transactionMonitor
          , transactionService := transactionService }
        (.ok info, info)

/-! ## Cheque commands (`core/commands/cheque`) -/

/-- The fields of `vault.SignedCheque` read by the send-list command. -/
structure SignedCheque where
  vault : String
  beneficiary : String
  cumulativePayout : Int
  deriving Repr, DecidableEq

/-- Modelled from the spec: the mapping returned by
`SwapService.LastSendCheques()` ("model as an explicit mapping type with
a defined, stable iteration contract: display order is insertion
order"), embedded as the insertion-ordered list of its entries, peer
identifier to cheque. -/
abbrev LastSendChequesMap : Type := List (String × SignedCheque)

/-- One display row of the send-list command (the `cheque` row type). -/
structure ChequeRow where
  peerID : String
  beneficiary : String
  vault : String
  payout : Int
  deriving Repr, DecidableEq

/-- The send-list command output value (`ListChequeRet`). -/
structure ListChequeRet where
  cheques : List ChequeRow
  len : Nat
  deriving Repr, DecidableEq

/-- Display row built by the loop body of `ListSendChequesCmd.Run` for
one mapping entry. -/
def chequeRowOf (kv : String × SignedCheque) : ChequeRow :=
  { peerID := kv.1, beneficiary := kv.2.beneficiary
  , vault := kv.2.vault, payout := kv.2.cumulativePayout }

/-- Embedding of the `Run` body of `ListSendChequesCmd` from
`core/commands/cheque/send_list.go`, applied to the mapping returned by
`LastSendCheques()`: build one row per entry in iteration order and set
`Len` to the row count. -/
def ListSendChequesRun (cheques : LastSendChequesMap) : ListChequeRet :=
  let rows := List.foldl (fun acc kv => acc ++ [chequeRowOf kv]) [] cheques
  { cheques := rows, len := rows.length }

/-- The fields of `vault.ChequeRecord` read by the receive-history
command; addresses as 160-bit numbers, the amount as an integer, the
receive time as a Unix timestamp. -/
structure ChequeRecord where
  vault : Nat
  beneficiary : Nat
  amount : Int
  receiveTime : Int
  deriving Repr, DecidableEq

/-- One output entry of the receive-history command
(`chequeRecordRet`). -/
structure ChequeRecordRet where
  peerId : String
  vault : Nat
  beneficiary : Nat
  amount : Int
  time : Int
  deriving Repr, DecidableEq

/-- The receive-history command output value (`ChequeRecords`). -/
structure ChequeRecords where
  records : List ChequeRecordRet
  len : Nat
  deriving Repr, DecidableEq

/-- Output entry built by the loop body of
`ChequeReceiveHistoryPeerCmd.Run` for one record. -/
def chequeRecordRetOf (peer_id : String) (v : ChequeRecord) : ChequeRecordRet :=
  { peerId := peer_id, vault := v.vault, beneficiary := v.beneficiary
  , amount := v.amount, time := v.receiveTime }

/-- Embedding of the `Run` body of `ChequeReceiveHistoryPeerCmd` from
`core/commands/cheque/receive_history_peer.go`, applied to the sequence
returned by `ReceivedChequeRecordsByPeer(peer_id)`: one entry per record
in order, each carrying the requested peer identifier, and `Len` set to
the entry count. -/
def ChequeReceiveHistoryPeerRun (peer_id : String) (records : List ChequeRecord) :
    ChequeRecords :=
  let recordsRet := List.foldl (fun acc v => acc ++ [chequeRecordRetOf peer_id v]) [] records
  { records := recordsRet, len := recordsRet.length }

/-- The fields of one per-day entry returned by
`ChequeStore.SentStatsHistory`. -/
structure ChequeStat where
  amount : Int
  count : Int
  date : Int
  deriving Repr, DecidableEq

/-- One output entry of the sent-stats command
(`chequeSentHistoryStats`). -/
structure ChequeSentHistoryStats where
  totalIssued : Int
  totalIssuedCount : Int
  date : Int
  deriving Repr, DecidableEq

/-- The constant `sentStatsDuration` from
`core/commands/cheque/receive_history_peer.go`: the trailing window, in
days, passed to `SentStatsHistory`. -/
def sentStatsDuration : Nat := 30

/-- Output entry built by the loop body of `ChequeSendHistoryStatsCmd.Run`
for one per-day stat. -/
def sentStatsRetOf (stat : ChequeStat) : ChequeSentHistoryStats :=
  { totalIssued := stat.amount, totalIssuedCount := stat.count, date := stat.date }

/-- Embedding of the `Run` body of `ChequeSendHistoryStatsCmd` from
`core/commands/cheque/receive_history_peer.go`, with
`ChequeStore.SentStatsHistory` passed in as a function from the window
length in days: call it at `sentStatsDuration`, propagate its error, and
otherwise copy each per-day stat, in order, into an output entry. -/
def ChequeSendHistoryStatsRun
    (sentStatsHistory : Nat → Except String (List ChequeStat)) :
    Except String (List ChequeSentHistoryStats) :=
  match sentStatsHistory sentStatsDuration with
  | .error e => .error e
  | .ok stats =>
    .ok (List.foldl (fun acc stat => acc ++ [sentStatsRetOf stat]) [] stats)

/-! ## WebUI paths (`core/corehttp/webui.go`) -/

/-- The current WebUI path constant (`WebUIPath`, v2.0.2). -/
def WebUIPath : String := "/btfs/QmPSaMbVPTrcPg8CxW8GRrKYY9YZyxEQek9eKg5is13S9H"

/-- The list of all past WebUI paths (`WebUIPaths`). -/
def WebUIPaths : List String :=
  [ WebUIPath
  , "/btfs/QmRZYABH4LisEQPQmpzHAAxacDZbsKtnysjzEuZBaug6bG"
  , "/btfs/QmRwxtQfzpfaLKYfg3qhxsFfpRm3J3qLXJxDofsLV8ydXq" ]

/-- A registered redirect: requests at `mountPath` are redirected to
`redirectTarget`. -/
structure RedirectOpt where
  mountPath : String
  redirectTarget : String
  deriving Repr, DecidableEq

/-- Modelled from the spec: `corehttp.RedirectOption(path, redirect)` is
outside the provided sources; it installs a redirect from the mount path
to the given target, embedded as the record of its two arguments. -/
def RedirectOption (path redirect : String) : RedirectOpt :=
  { mountPath := path, redirectTarget := redirect }

/-- `HostUIOption` from `core/corehttp/webui.go`. -/
def HostUIOption : RedirectOpt := RedirectOption "hostui" WebUIPath

/-- `WebUIOption` from `core/corehttp/webui.go`. -/
def WebUIOption : RedirectOpt := RedirectOption "webui" WebUIPath

/-- `DashboardOption` from `core/corehttp/webui.go`. -/
def DashboardOption : RedirectOpt := RedirectOption "dashboard" WebUIPath

/-- Spec-side predicate of the block-hash validation: after stripping an
optional hex prefix, the remainder is a valid hex encoding of exactly
32 bytes.  Stated from the spec wording, to be compared with the source
check (length 64, then hex decode). -/
abbrev specHexEncodingOf32Bytes (cs : List Char) : Prop :=
  cs.length = 64 ∧ ∀ c ∈ cs, isHexCharacter c

/-- A concrete chain backend used to instantiate theorems: the receipt
of every transaction sits at block 10 and the block at height n has the
one-byte hash [n]. -/
def sampleBackend : ChainBackend :=
  { transactionReceipt := fun _ => .ok { blockNumber := 10 }
  , waitBlock := fun _ n => .ok { hash := [n] } }

/-- A second concrete chain backend, everywhere failing, used to show
backend-independence of the explicit-hash path. -/
def sampleBackendFailing : ChainBackend :=
  { transactionReceipt := fun _ => .error "unreachable backend"
  , waitBlock := fun _ _ => .error "unreachable backend" }

/-- A concrete 64-character hex string (32 bytes of 0xaa). -/
def hex64 : String :=
  "aaaaaaaaaaaaaaaaaaaaaaaaaaaaaaaaaaaaaaaaaaaaaaaaaaaaaaaaaaaaaaaa"

/-! ## Helper lemmas -/

/-- Appending one mapped element per step, as the Go loops do with
`append`, builds exactly the mapped list. -/
theorem foldl_push_eq_map {α β : Type} (f : α → β) :
    ∀ (l : List α) (acc : List β),
      List.foldl (fun a x => a ++ [f x]) acc l = acc ++ l.map f
  | [], acc => by simp
  | x :: xs, acc => by
    simp [foldl_push_eq_map f xs]

/-- A hex decode succeeds exactly on inputs of even length all of whose
characters are hex digits. -/
theorem hexDecodeString_isSome_iff :
    ∀ cs : List Char,
      (hexDecodeString cs).isSome ↔ cs.length % 2 = 0 ∧ ∀ c ∈ cs, isHexCharacter c
  | [] => by simp [hexDecodeString]
  | [a] => by simp [hexDecodeString]
  | a :: b :: rest => by
    have ih := hexDecodeString_isSome_iff rest
    have hmod : (rest.length + 1 + 1) % 2 = rest.length % 2 := by omega
    simp only [hexDecodeString, List.length_cons, List.mem_cons, hmod]
    cases ha : hexVal a <;> cases hb : hexVal b <;> cases hr : hexDecodeString rest <;>
      simp_all [isHexCharacter]

/-- On a non-empty block-hash string `GetTxNextBlock` reduces to the
pure validation of that string, independent of the backend, the monitor,
the duration and the reference transaction. -/
theorem getTxNextBlock_of_ne_empty (backend : ChainBackend) (monitor : Monitor)
    (duration : Nat) (trx : List Nat) (blockHash : String) (hne : blockHash ≠ "") :
    GetTxNextBlock backend monitor duration trx blockHash =
      if (trimPfx0x blockHash.toList).length ≠ 64 then
        (.error "invalid length", [])
      else
        match hexDecodeString (trimPfx0x blockHash.toList) with
        | none => (.error "encoding hex: invalid byte", [])
        | some bytes => (.ok bytes, []) := by
  unfold GetTxNextBlock
  rw [if_pos hne]

/-! ## Theorems for the claims -/

/-- C10: the current WebUI path constant is the first element of the
historical `WebUIPaths` list, and the hostui, webui and dashboard
redirect options all redirect to that same current path. -/
theorem webUIPath_current_and_redirects :
    WebUIPaths.head? = some WebUIPath ∧
    HostUIOption.redirectTarget = WebUIPath ∧
    WebUIOption.redirectTarget = WebUIPath ∧
    DashboardOption.redirectTarget = WebUIPath :=
  ⟨rfl, rfl, rfl, rfl⟩

/-- C4: the send-list output is a pure function of the insertion-ordered
entry sequence of the last-sent-cheques mapping — one row per entry, in
insertion order, with `Len` the entry count — so two executions over the
same mapping display the same ordered sequence. -/
theorem listSendCheques_insertion_order (cheques : LastSendChequesMap) :
    (ListSendChequesRun cheques).cheques = cheques.map chequeRowOf ∧
    (ListSendChequesRun cheques).len = cheques.length ∧
    ∀ cheques2 : LastSendChequesMap, cheques2 = cheques →
      ListSendChequesRun cheques2 = ListSendChequesRun cheques := by
  refine ⟨?_, ?_, ?_⟩
  · simp [ListSendChequesRun, foldl_push_eq_map]
  · simp [ListSendChequesRun, foldl_push_eq_map]
  · intro cheques2 h
    rw [h]

/-- C4 witness: the theorem applied to a concrete two-entry mapping. -/
theorem listSendCheques_insertion_order_witness :
    (ListSendChequesRun
        [("p1", { vault := "v1", beneficiary := "b1", cumulativePayout := 3 }),
         ("p2", { vault := "v2", beneficiary := "b2", cumulativePayout := 5 })]).cheques =
      [ { peerID := "p1", beneficiary := "b1", vault := "v1", payout := 3 },
        { peerID := "p2", beneficiary := "b2", vault := "v2", payout := 5 } ] ∧
    (ListSendChequesRun
        [("p1", { vault := "v1", beneficiary := "b1", cumulativePayout := 3 }),
         ("p2", { vault := "v2", beneficiary := "b2", cumulativePayout := 5 })]).len = 2 :=
  ⟨(listSendCheques_insertion_order _).1,
   (listSendCheques_insertion_order _).2.1⟩

/-- C6: the receive-history command output has exactly one entry per
record returned for the requested peer, in the same order, each entry
copying the record fields, carrying the requested peer identifier, and
`Len` equal to the record count. -/
theorem chequeReceiveHistoryPeer_spec (peer_id : String) (records : List ChequeRecord) :
    (ChequeReceiveHistoryPeerRun peer_id records).records =
      records.map (chequeRecordRetOf peer_id) ∧
    (ChequeReceiveHistoryPeerRun peer_id records).len = records.length ∧
    ∀ r ∈ (ChequeReceiveHistoryPeerRun peer_id records).records, r.peerId = peer_id := by
  refine ⟨?_, ?_, ?_⟩
  · simp [ChequeReceiveHistoryPeerRun, foldl_push_eq_map]
  · simp [ChequeReceiveHistoryPeerRun, foldl_push_eq_map]
  · intro r hr
    simp [ChequeReceiveHistoryPeerRun, foldl_push_eq_map] at hr
    obtain ⟨v, _, rfl⟩ := hr
    rfl

/-- C6 witness: the theorem applied to a concrete peer and record list. -/
theorem chequeReceiveHistoryPeer_spec_witness :
    (ChequeReceiveHistoryPeerRun "peerA"
        [ { vault := 7, beneficiary := 9, amount := 11, receiveTime := 1700000000 } ]).records =
      [ { peerId := "peerA", vault := 7, beneficiary := 9, amount := 11, time := 1700000000 } ] ∧
    (ChequeReceiveHistoryPeerRun "peerA"
        [ { vault := 7, beneficiary := 9, amount := 11, receiveTime := 1700000000 } ]).len = 1 ∧
    ({ peerId := "peerA", vault := 7, beneficiary := 9, amount := 11,
       time := 1700000000 } : ChequeRecordRet).peerId = "peerA" := by
  have h := chequeReceiveHistoryPeer_spec "peerA"
    [ { vault := 7, beneficiary := 9, amount := 11, receiveTime := 1700000000 } ]
  exact ⟨h.1, h.2.1, h.2.2 _ (by rw [h.1]; simp [chequeRecordRetOf])⟩

/-- C7: the sent-stats command queries the cheque store at a window of
exactly 30 days, copies each returned per-day stat, in order, into one
output entry (summed amount as total issued, count as total issued
count, same date), and its output depends on the store history at window
30 only, adding no zero-filled entries. -/
theorem chequeSendHistoryStats_spec
    (sentStatsHistory : Nat → Except String (List ChequeStat)) :
    sentStatsDuration = 30 ∧
    (∀ stats, sentStatsHistory sentStatsDuration = .ok stats →
      ChequeSendHistoryStatsRun sentStatsHistory = .ok (stats.map sentStatsRetOf)) ∧
    (∀ g : Nat → Except String (List ChequeStat), g 30 = sentStatsHistory 30 →
      ChequeSendHistoryStatsRun g = ChequeSendHistoryStatsRun sentStatsHistory) := by
  refine ⟨rfl, ?_, ?_⟩
  · intro stats h
    simp [ChequeSendHistoryStatsRun, h, foldl_push_eq_map]
  · intro g h
    simp [ChequeSendHistoryStatsRun, sentStatsDuration, h]

/-- C7 witness: the theorem applied to a concrete two-day history. -/
theorem chequeSendHistoryStats_spec_witness :
    ChequeSendHistoryStatsRun
        (fun _ => .ok [ { amount := 100, count := 2, date := 1700000000 },
                        { amount := 50, count := 1, date := 1700086400 } ]) =
      .ok [ { totalIssued := 100, totalIssuedCount := 2, date := 1700000000 },
            { totalIssued := 50, totalIssuedCount := 1, date := 1700086400 } ] := by
  have h := (chequeSendHistoryStats_spec
      (fun _ => .ok [ { amount := 100, count := 2, date := 1700000000 },
                      { amount := 50, count := 1, date := 1700086400 } ])).2.1
    [ { amount := 100, count := 2, date := 1700000000 },
      { amount := 50, count := 1, date := 1700086400 } ] rfl
  simpa [sentStatsRetOf] using h

/-- C1: with an empty factory-address string, `initVaultFactory` builds
the factory with the well-known address of a known chain identifier, and
returns a configuration error value (no panic: the function is total) on
an unrecognized one; a non-empty string that is not a valid hex address
yields the malformed-factory-address error.  A known network is exactly
one present in the well-known table. -/
theorem initVaultFactory_spec {β τ : Type} (backend : β) (ts : τ) (chainID : Int)
    (factoryAddress : String) :
    ((GetChainConfig chainID).2 = true ↔ (knownChainConfigs.lookup chainID).isSome) ∧
    ((GetChainConfig chainID).2 = true → factoryAddress = "" →
      initVaultFactory backend chainID ts factoryAddress =
        .ok (NewFactory backend ts (GetChainConfig chainID).1.currentFactory)) ∧
    ((GetChainConfig chainID).2 = false → factoryAddress = "" →
      initVaultFactory backend chainID ts factoryAddress =
        .error ("no known factory address for this network (chain id: "
                  ++ toString chainID ++ ")")) ∧
    (factoryAddress ≠ "" → IsHexAddress factoryAddress = false →
      initVaultFactory backend chainID ts factoryAddress =
        .error "malformed factory address") := by
  refine ⟨?_, ?_, ?_, ?_⟩
  · unfold GetChainConfig
    cases h : knownChainConfigs.lookup chainID <;> simp [h]
  · intro hfound hempty
    simp [initVaultFactory, hempty, hfound]
  · intro hfound hempty
    simp [initVaultFactory, hempty, hfound]
  · intro hne hhex
    simp [initVaultFactory, hne, hhex]

/-- C1 witness: a known chain identifier with no explicit address, an
unknown one with no explicit address, and a malformed explicit
address. -/
theorem initVaultFactory_spec_witness :
    initVaultFactory (0 : Nat) 199 (0 : Nat) "" =
      .ok (NewFactory 0 0 (GetChainConfig 199).1.currentFactory) ∧
    initVaultFactory (0 : Nat) 42 (0 : Nat) "" =
      .error ("no known factory address for this network (chain id: "
                ++ toString (42 : Int) ++ ")") ∧
    initVaultFactory (0 : Nat) 199 (0 : Nat) "0xzz" =
      .error "malformed factory address" :=
  ⟨(initVaultFactory_spec 0 0 199 "").2.1 (by decide) rfl,
   (initVaultFactory_spec 0 0 42 "").2.2.1 (by decide) rfl,
   (initVaultFactory_spec 0 0 199 "0xzz").2.2.2 (by decide) (by decide)⟩

/-- C3: `GetTxHash` returns the stored hash bytes when the
vault-deployment key is present, returns the distinguished
supply-manually error exactly when the store reports `NotFound` for that
key, and propagates any other store error. -/
theorem getTxHash_spec (stateStore : String → StoreGetResult) :
    (∀ v, stateStore VaultDeploymentKey = .found v → GetTxHash stateStore = .ok v) ∧
    (GetTxHash stateStore = .error .notFoundManual ↔
      stateStore VaultDeploymentKey = .notFound) ∧
    (∀ e, stateStore VaultDeploymentKey = .failure e →
      GetTxHash stateStore = .error (.storeFailure e)) := by
  refine ⟨?_, ?_, ?_⟩
  · intro v h
    simp [GetTxHash, h]
  · unfold GetTxHash
    cases h : stateStore VaultDeploymentKey <;> simp [h]
  · intro e h
    simp [GetTxHash, h]

/-- C3 witness: a store holding the hash, a store reporting `NotFound`,
and a store failing with another error. -/
theorem getTxHash_spec_witness :
    GetTxHash (fun _ => .found [1, 2, 3]) = .ok [1, 2, 3] ∧
    GetTxHash (fun _ => .notFound) = .error .notFoundManual ∧
    GetTxHash (fun _ => .failure "disk corrupt") = .error (.storeFailure "disk corrupt") :=
  ⟨(getTxHash_spec (fun _ => .found [1, 2, 3])).1 _ rfl,
   (getTxHash_spec (fun _ => .notFound)).2.1.mpr rfl,
   (getTxHash_spec (fun _ => .failure "disk corrupt")).2.2 _ rfl⟩

/-- C8: if dialing the configured endpoint fails, `InitChain` returns
the wrapped dial error and leaves the package global `ChainObject`
unchanged; more generally every error return of `InitChain` leaves
`ChainObject` exactly as it was. -/
theorem initChain_error_frame (deps : InitChainDeps) (pollingInterval : Nat)
    (chainID : Int) (peerid : String) (st : ChainInfo) :
    (∀ e, deps.dial (GetChainConfig chainID).1.endpoint = .error e →
      InitChain deps pollingInterval chainID peerid st =
        (.error ("dial eth client: " ++ e), st)) ∧
    (∀ e, (InitChain deps pollingInterval chainID peerid st).1 = .error e →
      (InitChain deps pollingInterval chainID peerid st).2 = st) := by
  constructor
  · intro e h
    simp [InitChain, h]
  · intro e h
    unfold InitChain at h ⊢
    cases hd : deps.dial (GetChainConfig chainID).1.endpoint <;> simp [hd] at h ⊢
    cases ha : deps.ethereumAddress <;> simp [ha] at h ⊢
    cases hs : deps.newTransactionService <;> simp [hs] at h ⊢

/-- C8 witness: a dial failure on a concrete state leaves the state as
the result state. -/
theorem initChain_error_frame_witness :
    InitChain
        { dial := fun _ => .error "connection refused"
        , ethereumAddress := .ok 2, newTransactionService := .ok 3 }
        5 199 "peer"
        { chainconfig := { endpoint := "", currentFactory := 0, priceOracleAddress := 0 }
        , backend := 0, overlayAddress := 0, chainID := 0, peerID := ""
        , transactionMonitor := NewMonitor 0 0 0 0, transactionService := 0 } =
      (.error "dial eth client: connection refused",
       { chainconfig := { endpoint := "", currentFactory := 0, priceOracleAddress := 0 }
       , backend := 0, overlayAddress := 0, chainID := 0, peerID := ""
       , transactionMonitor := NewMonitor 0 0 0 0, transactionService := 0 }) :=
  (initChain_error_frame
    { dial := fun _ => .error "connection refused"
    , ethereumAddress := .ok 2, newTransactionService := .ok 3 }
    5 199 "peer"
    { chainconfig := { endpoint := "", currentFactory := 0, priceOracleAddress := 0 }
    , backend := 0, overlayAddress := 0, chainID := 0, peerID := ""
    , transactionMonitor := NewMonitor 0 0 0 0, transactionService := 0 }).1
    "connection refused" rfl

/-- C5: the monitor constructed by a successful `InitChain` carries the
package cancellation depth, which is exactly 6 blocks; the package
maximum stall wait is exactly one minute (in nanoseconds); and both are
per-deployment parameters of the underlying mechanisms: `NewMonitor`
records any requested depth and the fallback path of `GetTxNextBlock`
waits with its caller-supplied duration. -/
theorem initChain_monitor_policy (deps : InitChainDeps) (pollingInterval : Nat)
    (chainID : Int) (peerid : String) (st : ChainInfo) (info : ChainInfo)
    (h : (InitChain deps pollingInterval chainID peerid st).1 = .ok info) :
    info.transactionMonitor.cancellationDepth = CancellationDepth ∧
    CancellationDepth = 6 ∧
    MaxDelay = 60 * 1000000000 ∧
    (∀ b a p d, (NewMonitor b a p d).cancellationDepth = d) ∧
    (∀ (backend : ChainBackend) (monitor : Monitor) (duration : Nat)
        (trx : List Nat) (r : TxReceipt),
      backend.transactionReceipt (BytesToHash trx) = .ok r →
      BackendQuery.waitFor duration (r.blockNumber + 1) ∈
        (GetTxNextBlock backend monitor duration trx "").2) := by
  refine ⟨?_, rfl, rfl, fun _ _ _ _ => rfl, ?_⟩
  · unfold InitChain at h
    cases hd : deps.dial (GetChainConfig chainID).1.endpoint <;> simp [hd] at h
    cases ha : deps.ethereumAddress <;> simp [ha] at h
    cases hs : deps.newTransactionService <;> simp [hs] at h
    rw [← h]
    rfl
  · intro backend monitor duration trx r hr
    unfold GetTxNextBlock
    cases hw : backend.waitBlock duration (r.blockNumber + 1) <;> simp [hr, hw]

/-- C5 witness: the theorem applied to concrete always-succeeding
dependencies; the constructed monitor carries the package cancellation
depth. -/
theorem initChain_monitor_policy_witness :
    ({ chainconfig := (GetChainConfig 199).1, backend := 1, overlayAddress := 2
     , chainID := 199, peerID := "p"
     , transactionMonitor := NewMonitor 1 2 5 CancellationDepth
     , transactionService := 3 } : ChainInfo).transactionMonitor.cancellationDepth =
      CancellationDepth :=
  (initChain_monitor_policy
    { dial := fun _ => .ok 1, ethereumAddress := .ok 2, newTransactionService := .ok 3 }
    5 199 "p"
    { chainconfig := { endpoint := "", currentFactory := 0, priceOracleAddress := 0 }
    , backend := 0, overlayAddress := 0, chainID := 0, peerID := ""
    , transactionMonitor := NewMonitor 0 0 0 0, transactionService := 0 }
    { chainconfig := (GetChainConfig 199).1, backend := 1, overlayAddress := 2
    , chainID := 199, peerID := "p"
    , transactionMonitor := NewMonitor 1 2 5 CancellationDepth
    , transactionService := 3 }
    rfl).1

/-- C2: with a non-empty block-hash string, `GetTxNextBlock` returns the
hex-decoded bytes exactly when the trimmed remainder is a valid hex
encoding of exactly 32 bytes and an error otherwise; with an empty one
it reads the reference receipt, waits for the block one past the receipt
block number, and returns that block hash. -/
theorem getTxNextBlock_spec (backend : ChainBackend) (monitor : Monitor) (duration : Nat)
    (trx : List Nat) (blockHash : String) :
    (blockHash ≠ "" →
      (specHexEncodingOf32Bytes (trimPfx0x blockHash.toList) →
        ∃ bytes, hexDecodeString (trimPfx0x blockHash.toList) = some bytes ∧
          (GetTxNextBlock backend monitor duration trx blockHash).1 = .ok bytes) ∧
      (¬ specHexEncodingOf32Bytes (trimPfx0x blockHash.toList) →
        ∃ e, (GetTxNextBlock backend monitor duration trx blockHash).1 = .error e)) ∧
    (blockHash = "" →
      ∀ r, backend.transactionReceipt (BytesToHash trx) = .ok r →
        ∀ b, backend.waitBlock duration (r.blockNumber + 1) = .ok b →
          (GetTxNextBlock backend monitor duration trx blockHash).1 = .ok b.hash ∧
          (GetTxNextBlock backend monitor duration trx blockHash).2 =
            [.receiptOf (BytesToHash trx), .waitFor duration (r.blockNumber + 1)]) := by
  constructor
  · intro hne
    constructor
    · rintro ⟨hlen, hall⟩
      have hsome : (hexDecodeString (trimPfx0x blockHash.toList)).isSome := by
        rw [hexDecodeString_isSome_iff]
        exact ⟨by omega, hall⟩
      obtain ⟨bytes, hdec⟩ := Option.isSome_iff_exists.mp hsome
      refine ⟨bytes, hdec, ?_⟩
      rw [getTxNextBlock_of_ne_empty backend monitor duration trx blockHash hne,
        if_neg (not_ne_iff.mpr hlen), hdec]
    · intro hnot
      by_cases hlen : (trimPfx0x blockHash.toList).length = 64
      · have hall : ¬ ∀ c ∈ trimPfx0x blockHash.toList, isHexCharacter c :=
          fun hall => hnot ⟨hlen, hall⟩
        have hnone : hexDecodeString (trimPfx0x blockHash.toList) = none := by
          cases hd : hexDecodeString (trimPfx0x blockHash.toList) with
          | none => rfl
          | some bs =>
            exact absurd ((hexDecodeString_isSome_iff _).mp (by rw [hd]; rfl)).2 hall
        exact ⟨"encoding hex: invalid byte",
          by rw [getTxNextBlock_of_ne_empty backend monitor duration trx blockHash hne,
            if_neg (not_ne_iff.mpr hlen), hnone]⟩
      · exact ⟨"invalid length",
          by rw [getTxNextBlock_of_ne_empty backend monitor duration trx blockHash hne,
            if_pos hlen]⟩
  · intro he r hr b hb
    constructor <;> simp [GetTxNextBlock, he, hr, hb]

/-- C2 witness: the explicit-hash path on a concrete 64-character hex
string and the fallback path on a concrete backend. -/
theorem getTxNextBlock_spec_witness :
    (GetTxNextBlock sampleBackend (NewMonitor 0 0 0 0) 7 [1] hex64).1 =
      .ok (List.replicate 32 170) ∧
    (GetTxNextBlock sampleBackend (NewMonitor 0 0 0 0) 7 [1] "").1 = .ok [11] ∧
    (GetTxNextBlock sampleBackend (NewMonitor 0 0 0 0) 7 [1] "").2 =
      [.receiptOf (BytesToHash [1]), .waitFor 7 11] := by
  refine ⟨?_, ?_, ?_⟩
  · obtain ⟨bytes, hdec, hres⟩ :=
      ((getTxNextBlock_spec sampleBackend (NewMonitor 0 0 0 0) 7 [1] hex64).1
        (by decide)).1 (by decide)
    have h2 : hexDecodeString (trimPfx0x hex64.toList) = some (List.replicate 32 170) := by
      decide
    rw [hdec] at h2
    rw [hres, Option.some.inj h2]
  · exact (((getTxNextBlock_spec sampleBackend (NewMonitor 0 0 0 0) 7 [1] "").2 rfl)
      { blockNumber := 10 } rfl { hash := [11] } rfl).1
  · exact (((getTxNextBlock_spec sampleBackend (NewMonitor 0 0 0 0) 7 [1] "").2 rfl)
      { blockNumber := 10 } rfl { hash := [11] } rfl).2

/-- C9: called with a non-empty block-hash string whose trimmed content
is 64 hex characters, `GetTxNextBlock` performs no backend query at all
and its result does not depend on the backend, the monitor, the wait
duration or the reference transaction. -/
theorem getTxNextBlock_frame (backend : ChainBackend) (monitor : Monitor) (duration : Nat)
    (trx : List Nat) (blockHash : String)
    (hne : blockHash ≠ "")
    (hlen : (trimPfx0x blockHash.toList).length = 64)
    (hhex : ∀ c ∈ trimPfx0x blockHash.toList, isHexCharacter c) :
    (GetTxNextBlock backend monitor duration trx blockHash).2 = [] ∧
    ∀ (backend2 : ChainBackend) (monitor2 : Monitor) (duration2 : Nat) (trx2 : List Nat),
      GetTxNextBlock backend2 monitor2 duration2 trx2 blockHash =
        GetTxNextBlock backend monitor duration trx blockHash := by
  have key : ∀ (b : ChainBackend) (m : Monitor) (d : Nat) (t : List Nat),
      GetTxNextBlock b m d t blockHash =
        match hexDecodeString (trimPfx0x blockHash.toList) with
        | none => (.error "encoding hex: invalid byte", [])
        | some bytes => (.ok bytes, []) := by
    intro b m d t
    rw [getTxNextBlock_of_ne_empty b m d t blockHash hne, if_neg (not_ne_iff.mpr hlen)]
  constructor
  · rw [key backend monitor duration trx]
    cases hexDecodeString (trimPfx0x blockHash.toList) <;> rfl
  · intro backend2 monitor2 duration2 trx2
    rw [key backend2 monitor2 duration2 trx2, key backend monitor duration trx]

/-- C9 witness: on a concrete 64-character hex string the query trace is
empty and a failing backend with a different reference transaction gives
the identical result. -/
theorem getTxNextBlock_frame_witness :
    (GetTxNextBlock sampleBackend (NewMonitor 0 0 0 0) 7 [1] hex64).2 = [] ∧
    GetTxNextBlock sampleBackendFailing (NewMonitor 1 1 1 1) 9 [2, 3] hex64 =
      GetTxNextBlock sampleBackend (NewMonitor 0 0 0 0) 7 [1] hex64 := by
  have h := getTxNextBlock_frame sampleBackend (NewMonitor 0 0 0 0) 7 [1] hex64
    (by decide) (by decide) (by decide)
  exact ⟨h.1, h.2 sampleBackendFailing (NewMonitor 1 1 1 1) 9 [2, 3]⟩

end Btfs
